import Mathlib

/-!
Shallow embedding of the Olyph-AI scoring and routing code
(`src/survey_agent.py`, `src/chat_agent.py`, `src/agent.py`).

Python floats are modelled as real numbers; Python `None` as `Option`;
code that may raise is modelled with `Except`.  External collaborators
(the Azure OpenAI client, the Google-Sheets worksheet, scikit-learn's
fitted TF-IDF index) are passed in as explicit oracle parameters.
-/

namespace Olyph

/-! ### survey_agent.py : cosine_similarity -/

/-- The dot product `sum(a * b for a, b in zip(vec1, vec2))`. -/
noncomputable def dotList (v1 v2 : List ℝ) : ℝ :=
  (List.zipWith (fun a b => a * b) v1 v2).sum

/-- The L2 norm `math.sqrt(sum(a * a for a in vec))`. -/
noncomputable def normList (v : List ℝ) : ℝ :=
  Real.sqrt ((v.map (fun a => a * a)).sum)

/-- `cosine_similarity(vec1, vec2)` from `src/survey_agent.py` lines 162-173:
returns `0.0` when either argument is `None`, when the lengths differ, or when
either L2 norm is zero; otherwise the dot product over the product of norms. -/
noncomputable def cosine_similarity (vec1 vec2 : Option (List ℝ)) : ℝ :=
  match vec1, vec2 with
  | none, _ => 0
  | _, none => 0
  | some v1, some v2 =>
    if v1.length ≠ v2.length then 0
    else
      let dot := dotList v1 v2
      let n1 := normList v1
      let n2 := normList v2
      if n1 = 0 ∨ n2 = 0 then 0 else dot / (n1 * n2)

/-- Exact-arithmetic model of Python's `round(x, 1)`: round `10 * x` to the
nearest integer, ties to the even integer, then divide by `10`. -/
noncomputable def pyRound1 (x : ℝ) : ℝ :=
  let y := 10 * x
  let f : ℤ := ⌊y⌋
  let r := y - f
  let z : ℤ :=
    if r < 1 / 2 then f
    else if 1 / 2 < r then f + 1
    else if Even f then f else f + 1
  (z : ℝ) / 10

/-! ### Python text primitives, modelled structurally over the character list -/

/-- Python `str.strip()`: remove whitespace from both ends. -/
def pyStrip (s : String) : String :=
  ⟨((s.data.dropWhile Char.isWhitespace).reverse.dropWhile Char.isWhitespace).reverse⟩

/-- Helper for `pySplit`: accumulate the current token (reversed) while
scanning the characters. -/
def splitWsAux : List Char → List Char → List String
  | [], acc => if acc.isEmpty then [] else [⟨acc.reverse⟩]
  | c :: cs, acc =>
    if c.isWhitespace then
      if acc.isEmpty then splitWsAux cs [] else ⟨acc.reverse⟩ :: splitWsAux cs []
    else splitWsAux cs (c :: acc)

/-- Python `str.split()` with no argument: split on whitespace runs,
discarding empty pieces (so `"".split()` and `"   ".split()` are `[]`). -/
def pySplit (s : String) : List String := splitWsAux s.data []

/-- Python `str.lower()`, character-wise. -/
def pyLower (s : String) : String := ⟨s.data.map Char.toLower⟩

/-! ### survey_agent.py : simple_bow_embedding -/

/-- The inner `tokenize` of `simple_bow_embedding`: Python's `s.split()`
followed by `tok.lower()` on every token.  An empty string tokenizes to
the empty list. -/
def tokenize (s : String) : List String :=
  (pySplit s).map pyLower

/-- Helper for `dedupFirst`, carrying the set of already-seen keys. -/
def dedupFirstAux (seen : List String) : List String → List String
  | [] => []
  | x :: xs =>
    if x ∈ seen then dedupFirstAux seen xs
    else x :: dedupFirstAux (x :: seen) xs

/-- `list(dict.fromkeys(...))`: deduplicate a list keeping the first
occurrence of each element, preserving order. -/
def dedupFirst (l : List String) : List String :=
  dedupFirstAux [] l

/-- The inner `normalize` of `simple_bow_embedding`: divide by the L2 norm,
a no-op when the norm is zero.  (`normList` is the same
`math.sqrt(sum(x * x ...))` expression the Python helper computes.) -/
noncomputable def normalize (v : List ℝ) : List ℝ :=
  if normList v = 0 then v else v.map (fun x => x / normList v)

/-- `simple_bow_embedding(a_text, b_text)` from `src/survey_agent.py`
lines 90-117: shared first-seen-order vocabulary over both token lists
(`a` first), per-text token-count vectors, each L2-normalized. -/
noncomputable def simple_bow_embedding (a_text b_text : String) :
    List ℝ × List ℝ :=
  let a_tokens := tokenize a_text
  let b_tokens := tokenize b_text
  let vocab := dedupFirst (a_tokens ++ b_tokens)
  let a_vec := vocab.map (fun w => ((a_tokens.count w : ℕ) : ℝ))
  let b_vec := vocab.map (fun w => ((b_tokens.count w : ℕ) : ℝ))
  (normalize a_vec, normalize b_vec)

/-! ### survey_agent.py : get_embedding_safe -/

/-- One item of an embeddings response; the `embedding` field may be
missing (`none`). -/
structure EmbItem where
  embedding : Option (List ℝ)

/-- An embeddings response: a `data` list of items. A malformed response
(no `data` list / empty / item without an `embedding` field) is expressible. -/
structure EmbResp where
  data : List EmbItem

/-- `get_embedding_safe(text)` from `src/survey_agent.py` lines 123-156,
with the outcome of the single Azure call passed in as `call`
(`.error` models a raised transport exception).  Returns `none` for an
empty/whitespace-only input, a failed call, or an unexpected response
shape; otherwise the vector of the first data item
(`[float(x) for x in embedding]` is the identity in the real model). -/
def get_embedding_safe (call : Except Unit EmbResp) (text : String) :
    Option (List ℝ) :=
  let t := pyStrip text
  if t = "" then none
  else
    match call with
    | .error _ => none
    | .ok resp =>
      match resp.data with
      | [] => none
      | item :: _ =>
        match item.embedding with
        | none => none
        | some e => some e

/-! ### survey_agent.py : score_single_pair and score_answers_with_azure -/

/-- `score_single_pair(model_answer, user_answer)` from
`src/survey_agent.py` lines 179-207.  `azure` gives the outcome of the
Azure embeddings call for each input text.  If either embedding is
unavailable the bag-of-words fallback supplies both vectors; the raw
cosine similarity is clamped at `0.0` from below and rounded to one
decimal digit. -/
noncomputable def score_single_pair (azure : String → Except Unit EmbResp)
    (model_answer user_answer : String) : ℝ :=
  let model_vec := get_embedding_safe (azure model_answer) model_answer
  let user_vec :=
    if user_answer ≠ "" then get_embedding_safe (azure user_answer) user_answer
    else none
  let vecs : List ℝ × List ℝ :=
    match model_vec, user_vec with
    | some mv, some uv => (mv, uv)
    | _, _ => simple_bow_embedding model_answer user_answer
  let raw_sim := cosine_similarity (some vecs.1) (some vecs.2)
  let mapped := max 0 raw_sim
  pyRound1 mapped

/-- The `MODEL_ANSWERS` configuration dict of `src/survey_agent.py`
(insertion order `Q1`, `Q2`, `Q3`). -/
def MODEL_ANSWERS : List (String × String) := [
  ("Q1", "Paperless. No duplication of work. No manual entries in registers."),
  ("Q2", "Better credit from government and insurance companies. Faster reimbursement of insurance claims. Better trust by patients."),
  ("Q3", "Stand out from competition. Will get more patients. Patients will trust us more.")]

/-- The per-question loop of `score_answers_with_azure`: for each
`(qid, model_answer)` pair, an empty stripped user answer scores `0.0`;
otherwise `scorer` is invoked (`.error` models a raised exception, caught
and degraded to `0.0`).  Returns the ordered score entries and the
accumulated total. -/
noncomputable def scoreLoop (scorer : String → String → Except Unit ℝ)
    (user_answers : String → Option String) :
    List (String × String) → List (String × ℝ) × ℝ
  | [] => ([], 0)
  | (qid, model_answer) :: rest =>
    let user_answer := pyStrip ((user_answers qid).getD "")
    if user_answer = "" then
      let r := scoreLoop scorer user_answers rest
      ((qid, 0) :: r.1, r.2)
    else
      match scorer model_answer user_answer with
      | .ok s =>
        let r := scoreLoop scorer user_answers rest
        ((qid, s) :: r.1, s + r.2)
      | .error _ =>
        let r := scoreLoop scorer user_answers rest
        ((qid, 0) :: r.1, r.2)

/-- `score_answers_with_azure(user_answers)` from `src/survey_agent.py`
lines 210-230: the per-question scores in `MODEL_ANSWERS` order followed
by the `"total"` entry, the sum rounded to one decimal digit.  `scorer`
stands for `score_single_pair` with its ambient Azure client. -/
noncomputable def score_answers_with_azure
    (scorer : String → String → Except Unit ℝ)
    (user_answers : String → Option String) : List (String × ℝ) :=
  let r := scoreLoop scorer user_answers MODEL_ANSWERS
  r.1 ++ [("total", pyRound1 r.2)]

/-! ### survey_agent.py : process_unscored_responses -/

/-- A spreadsheet cell as the batch driver sees it. -/
inductive Cell where
  | empty
  | str (s : String)
  | num (x : ℝ)

/-- Python's `str(row.get("Score Q1", "")).strip() != ""`: `str` of a float
is never empty nor whitespace-only, so a numeric cell always counts as
already scored. -/
def Cell.scored : Cell → Bool
  | .empty => false
  | .str s => pyStrip s ≠ ""
  | .num _ => true

/-- One data row of `ws.get_all_records()`: a total mapping from header
column name to cell value (a column with no value reads as empty). -/
def Row : Type := String → Cell

/-- `ws.update_cell(i, col_index[col], v)`: writing the cell of column
`col` in this row. -/
def Row.update (r : Row) (col : String) (v : Cell) : Row :=
  fun c => if c = col then v else r c

/-- The external worksheet: its header row and its data rows. -/
structure Sheet where
  header : List String
  rows : List Row

/-- The `QUESTION_COLUMNS` configuration dict of `src/survey_agent.py`. -/
def QUESTION_COLUMNS : List (String × String) := [
  ("Q1", "What is your vision for a digital hospital?"),
  ("Q2", "How will your hospital benefit if your hospital is NABH compliant?"),
  ("Q3", "How will your hospital benefit if your hospital is ABDM compliant?")]

/-- The `SCORE_COLUMNS` configuration dict of `src/survey_agent.py`. -/
def SCORE_COLUMNS : List (String × String) :=
  [("Q1", "Score Q1"), ("Q2", "Score Q2"), ("Q3", "Score Q3")]

/-- `required = list(QUESTION_COLUMNS.values()) + list(SCORE_COLUMNS.values()) + ["Total"]`. -/
def requiredCols : List String :=
  QUESTION_COLUMNS.map Prod.snd ++ SCORE_COLUMNS.map Prod.snd ++ ["Total"]

/-- The write-back loop of `process_unscored_responses`: one
`update_cell` per score column (`scores.get(qid, 0.0)`) plus the `Total`
cell (`scores.get("total", 0.0)`). -/
noncomputable def writeScores (row : Row) (scores : List (String × ℝ)) : Row :=
  let row1 := SCORE_COLUMNS.foldl
    (fun r p => r.update p.2 (Cell.num ((scores.lookup p.1).getD 0))) row
  row1.update "Total" (Cell.num ((scores.lookup "total").getD 0))

/-- The row loop of `process_unscored_responses`: skip a row whose
`Score Q1` cell is non-empty, otherwise compute its scores, write them
back (unless `DEBUG`, which only prints) and count it as updated.
`score` stands for `score_answers_with_azure` applied to the row's
answers, with its ambient Azure client. -/
noncomputable def processRows (score : Row → List (String × ℝ)) (debug : Bool) :
    List Row → List Row × ℕ
  | [] => ([], 0)
  | row :: rest =>
    if (row "Score Q1").scored then
      let r := processRows score debug rest
      (row :: r.1, r.2)
    else
      let scores := score row
      let newRow := if debug then row else writeScores row scores
      let r := processRows score debug rest
      (newRow :: r.1, r.2 + 1)

/-- `process_unscored_responses()` from `src/survey_agent.py` lines
236-279: check every required column is present in the header (raising
`ValueError`, modelled as `.error`, before touching any row), then run
the row loop; returns the updated sheet and the count of rows updated. -/
noncomputable def process_unscored_responses (score : Row → List (String × ℝ))
    (debug : Bool) (sheet : Sheet) : Except String (Sheet × ℕ) :=
  match requiredCols.find? (fun c => ! sheet.header.contains c) with
  | some col => .error ("Missing required column: " ++ col)
  | none =>
    let r := processRows score debug sheet.rows
    .ok (⟨sheet.header, r.1⟩, r.2)

/-! ### chat_agent.py / agent.py : OlyphauntChatbot.respond -/

/-- One element of `resp.choices`, carrying the three response shapes
`_extract_text_from_choice` probes: a `message` with a content value
(attribute- or dict-shaped; the inner `Option` is the content itself,
which may be `None`), a dict-shaped `choice["message"]["content"]`, and a
legacy flat `choice.text`. -/
structure Choice where
  messageContent : Option (Option String)
  dictContent : Option (Option String)
  text : Option String

/-- A chat-completion response: its `choices` list. -/
structure ChatResp where
  choices : List Choice

/-- `OlyphauntChatbot._extract_text_from_choice`: try the message-shaped
content, then the dict-shaped content, then the flat `text` field, in
that order; `none` when nothing is extractable. -/
def extract_text_from_choice (choice : Choice) : Option String :=
  match choice.messageContent with
  | some c => c
  | none =>
    match choice.dictContent with
    | none => choice.text
    | some c => c

/-- The chatbot's external collaborators: `simsOf` is the fitted TF-IDF
index (`none` models `self.question_vectors is None` after a failed fit;
`.error` an exception inside the FAQ try-block), mapping the lowered
query to its similarity row against the corpus; `chat` is the outcome of
`client.chat.completions.create` for the raw query. -/
structure ChatEnv where
  simsOf : Option (String → Except Unit (List ℝ))
  chat : String → Except Unit ChatResp

/-- The fixed invalid-input reply of `respond`. -/
def invalidMsg : String := "⚠️ Please enter a valid question."

/-- The fixed reply when the chat call succeeds but no text is extractable. -/
def uncertainMsg : String :=
  "🤖 I'm not certain about that. Could you rephrase or provide more details?"

/-- The fixed reply when the chat call raises. -/
def offlineMsg : String :=
  "⚠️ Olyph AI is currently offline or Azure OpenAI returned an error. Please try again later."

/-- Helper for `npArgmax`: scan the remaining list with a running maximum
`bv` at index `best`, replacing it only on a strictly greater value. -/
noncomputable def argmaxGo : List ℝ → ℕ → ℕ → ℝ → ℕ
  | [], _, best, _ => best
  | y :: ys, i, best, bv =>
    if bv < y then argmaxGo ys (i + 1) i y else argmaxGo ys (i + 1) best bv

/-- Model of `numpy.argmax` (`int(np.argmax(sims))` / `sims.argmax()`):
the index of the maximum value, ties broken by first occurrence, which is
numpy's documented behaviour.  The `[]` case is irrelevant here: the FAQ
corpus is never empty (a built-in placeholder pair is inserted when the
PDF yields no pairs). -/
noncomputable def npArgmax : List ℝ → ℕ
  | [] => 0
  | x :: xs => argmaxGo xs 1 0 x

/-- The first try-block of `respond` (FAQ via TF-IDF): look up the
similarity row for the lowered query, take the running-maximum index, and
return the stored answer when the score reaches the threshold.  `none`
covers: no fitted index, an exception in the block (caught and ignored),
or a score below the threshold.  `answers.getD max_idx ""` models
`self.answers[max_idx]`, in range whenever the similarity row and the
answer list share the corpus length. -/
noncomputable def faqLookup (env : ChatEnv) (answers : List String)
    (threshold : ℝ) (user_query_text : String) : Option String :=
  match env.simsOf with
  | none => none
  | some f =>
    match f (pyLower user_query_text) with
    | .error _ => none
    | .ok sims =>
      let max_idx := npArgmax sims
      let score := sims.getD max_idx 0
      if threshold ≤ score then some (answers.getD max_idx "") else none

/-- The second try-block of `respond` (Azure chat fallback): a raised
call yields the fixed offline message; a response with no choices, no
extractable text, or empty text yields the fixed uncertainty message;
otherwise the extracted text, stripped. -/
noncomputable def chatFallbackReply (env : ChatEnv)
    (user_query_text : String) : String :=
  match env.chat user_query_text with
  | .error _ => offlineMsg
  | .ok resp =>
    match resp.choices with
    | [] => uncertainMsg
    | choice0 :: _ =>
      match extract_text_from_choice choice0 with
      | none => uncertainMsg
      | some t => if t = "" then uncertainMsg else pyStrip t

/-- `OlyphauntChatbot.respond(user_query)` from `src/chat_agent.py` lines
144-184 and `src/agent.py` lines 135-175.  The two variants differ only
in the FAQ-hit threshold (`0.6` vs `0.7`), passed here as a parameter.
`answers` is the stored list of FAQ answers, index-aligned with the
similarity row. -/
noncomputable def respond (env : ChatEnv) (answers : List String)
    (threshold : ℝ) (user_query : Option String) : String :=
  let user_query_text := pyStrip (user_query.getD "")
  if user_query_text = "" then invalidMsg
  else
    match faqLookup env answers threshold user_query_text with
    | some ans => ans
    | none => chatFallbackReply env user_query_text

/-! ### basic lemmas about the pieces above -/

lemma pyRound1_int_cases (x : ℝ) :
    pyRound1 x = (⌊10 * x⌋ : ℝ) / 10 ∨
      (pyRound1 x = ((⌊10 * x⌋ : ℝ) + 1) / 10 ∧ 1 / 2 ≤ 10 * x - (⌊10 * x⌋ : ℝ)) := by
  unfold pyRound1
  simp only []
  split
  · left; rfl
  · rename_i h1
    push_neg at h1
    split
    · right; constructor
      · push_cast; ring_nf
      · exact h1
    · split
      · left; rfl
      · right; constructor
        · push_cast; ring_nf
        · exact h1

lemma pyRound1_nonneg {x : ℝ} (hx : 0 ≤ x) : 0 ≤ pyRound1 x := by
  have h0 : (0 : ℤ) ≤ ⌊10 * x⌋ := by
    refine Int.le_floor.mpr ?_
    simpa using mul_nonneg (by norm_num : (0:ℝ) ≤ 10) hx
  have h0' : (0 : ℝ) ≤ (⌊10 * x⌋ : ℝ) := by exact_mod_cast h0
  rcases pyRound1_int_cases x with h | ⟨h, _⟩ <;> rw [h] <;> linarith

lemma pyRound1_le_one {x : ℝ} (hx : x ≤ 1) : pyRound1 x ≤ 1 := by
  rcases pyRound1_int_cases x with h | ⟨h, hr⟩ <;> rw [h]
  · have h1 : (⌊10 * x⌋ : ℝ) ≤ 10 * x := Int.floor_le _
    linarith
  · have h9 : ⌊10 * x⌋ ≤ 9 := by
      have hle : (⌊10 * x⌋ : ℝ) ≤ 19 / 2 := by linarith
      have h2 : ⌊10 * x⌋ ≤ ⌊(19 : ℝ) / 2⌋ := Int.le_floor.mpr hle
      have h3 : ⌊(19 : ℝ) / 2⌋ = 9 := by norm_num
      omega
    have : (⌊10 * x⌋ : ℝ) ≤ 9 := by exact_mod_cast h9
    linarith

lemma pyRound1_zero : pyRound1 0 = 0 := by
  unfold pyRound1
  norm_num

lemma list_map_sq_sum (v : List ℝ) :
    (v.map (fun a => a * a)).sum
      = ∑ i ∈ Finset.range v.length, v.getD i 0 * v.getD i 0 := by
  induction v with
  | nil => simp
  | cons x xs ih =>
    simp only [List.map_cons, List.sum_cons, List.length_cons, Finset.sum_range_succ',
      List.getD_cons_succ, List.getD_cons_zero, ih]
    ring

lemma list_zip_mul_sum (v1 : List ℝ) :
    ∀ v2 : List ℝ, v1.length = v2.length →
      (List.zipWith (fun a b => a * b) v1 v2).sum
        = ∑ i ∈ Finset.range v1.length, v1.getD i 0 * v2.getD i 0 := by
  induction v1 with
  | nil => intro v2 h; simp
  | cons x xs ih =>
    intro v2 h
    cases v2 with
    | nil => simp at h
    | cons y ys =>
      simp only [List.length_cons, Nat.succ_inj] at h
      simp only [List.zipWith_cons_cons, List.sum_cons, List.length_cons,
        Finset.sum_range_succ', List.getD_cons_succ, List.getD_cons_zero, ih ys h]
      ring

lemma normList_nonneg (v : List ℝ) : 0 ≤ normList v := Real.sqrt_nonneg _

/-- Cauchy-Schwarz for the list-level dot product and norms used by
`cosine_similarity`. -/
lemma abs_dotList_le (v1 v2 : List ℝ) (h : v1.length = v2.length) :
    |dotList v1 v2| ≤ normList v1 * normList v2 := by
  have hA : (0 : ℝ) ≤ ∑ i ∈ Finset.range v1.length, v1.getD i 0 * v1.getD i 0 :=
    Finset.sum_nonneg (fun i _ => mul_self_nonneg _)
  have hcs := Finset.sum_mul_sq_le_sq_mul_sq (Finset.range v1.length)
    (fun i => v1.getD i 0) (fun i => v2.getD i 0)
  have hdot : dotList v1 v2
      = ∑ i ∈ Finset.range v1.length, v1.getD i 0 * v2.getD i 0 :=
    list_zip_mul_sum v1 v2 h
  have hn1 : normList v1
      = Real.sqrt (∑ i ∈ Finset.range v1.length, v1.getD i 0 * v1.getD i 0) := by
    unfold normList; rw [list_map_sq_sum]
  have hn2 : normList v2
      = Real.sqrt (∑ i ∈ Finset.range v1.length, v2.getD i 0 * v2.getD i 0) := by
    unfold normList; rw [list_map_sq_sum, h]
  rw [hdot, hn1, hn2]
  have habs : |∑ i ∈ Finset.range v1.length, v1.getD i 0 * v2.getD i 0|
      = Real.sqrt ((∑ i ∈ Finset.range v1.length, v1.getD i 0 * v2.getD i 0) ^ 2) :=
    (Real.sqrt_sq_eq_abs _).symm
  rw [habs, ← Real.sqrt_mul hA]
  apply Real.sqrt_le_sqrt
  calc (∑ i ∈ Finset.range v1.length, v1.getD i 0 * v2.getD i 0) ^ 2
      ≤ (∑ i ∈ Finset.range v1.length, v1.getD i 0 ^ 2)
          * ∑ i ∈ Finset.range v1.length, v2.getD i 0 ^ 2 := hcs
    _ = (∑ i ∈ Finset.range v1.length, v1.getD i 0 * v1.getD i 0)
          * ∑ i ∈ Finset.range v1.length, v2.getD i 0 * v2.getD i 0 := by
        simp only [pow_two]

/-- The cosine similarity of any two (optional) vectors lies in `[-1, 1]`. -/
lemma cosine_similarity_bounds (o1 o2 : Option (List ℝ)) :
    -1 ≤ cosine_similarity o1 o2 ∧ cosine_similarity o1 o2 ≤ 1 := by
  match o1, o2 with
  | none, _ => unfold cosine_similarity; norm_num
  | some v1, none => unfold cosine_similarity; norm_num
  | some v1, some v2 =>
    unfold cosine_similarity
    simp only []
    split
    · norm_num
    · rename_i hlen
      push_neg at hlen
      split
      · norm_num
      · rename_i hnz
        push_neg at hnz
        have h1 : 0 < normList v1 := lt_of_le_of_ne (normList_nonneg v1) (Ne.symm hnz.1)
        have h2 : 0 < normList v2 := lt_of_le_of_ne (normList_nonneg v2) (Ne.symm hnz.2)
        have hpos : 0 < normList v1 * normList v2 := mul_pos h1 h2
        have habs := abs_dotList_le v1 v2 hlen
        rw [abs_le] at habs
        constructor
        · rw [le_div_iff₀ hpos]
          linarith
        · rw [div_le_one hpos]
          exact habs.2

/-! ### Claim C1: the semantic scorer stays in the unit interval -/

lemma pyRound1_max_range (c : ℝ) (h1 : c ≤ 1) :
    0 ≤ pyRound1 (max 0 c) ∧ pyRound1 (max 0 c) ≤ 1 :=
  ⟨pyRound1_nonneg (le_max_left _ _), pyRound1_le_one (max_le zero_le_one h1)⟩

/-- Claim C1: for every pair of vectors, the semantic scorer stays in
`[0.0, 1.0]`: `score_single_pair` (for any Azure outcome and any input
texts) returns a value in `[0, 1]`; `cosine_similarity` returns `0.0`
whenever either norm is zero (no division by zero); a non-positive raw
similarity is clamped to `0.0` by `max 0` before the one-decimal
rounding; in particular a raw similarity of `-1.0` (anti-parallel
vectors) yields `0.0`. -/
theorem semantic_scorer_unit_range :
    (∀ (azure : String → Except Unit EmbResp) (ma ua : String),
      0 ≤ score_single_pair azure ma ua ∧ score_single_pair azure ma ua ≤ 1)
  ∧ (∀ v1 v2 : List ℝ, normList v1 = 0 ∨ normList v2 = 0 →
      cosine_similarity (some v1) (some v2) = 0)
  ∧ (∀ v1 v2 : List ℝ, cosine_similarity (some v1) (some v2) ≤ 0 →
      pyRound1 (max 0 (cosine_similarity (some v1) (some v2))) = 0)
  ∧ (∀ v1 v2 : List ℝ, cosine_similarity (some v1) (some v2) = -1 →
      pyRound1 (max 0 (cosine_similarity (some v1) (some v2))) = 0) := by
  have hclamp : ∀ v1 v2 : List ℝ, cosine_similarity (some v1) (some v2) ≤ 0 →
      pyRound1 (max 0 (cosine_similarity (some v1) (some v2))) = 0 := by
    intro v1 v2 h
    rw [max_eq_left h, pyRound1_zero]
  refine ⟨?_, ?_, hclamp, ?_⟩
  · intro azure ma ua
    unfold score_single_pair
    simp only []
    exact pyRound1_max_range _ (cosine_similarity_bounds _ _).2
  · intro v1 v2 h
    unfold cosine_similarity
    simp only []
    split <;> rfl
  · intro v1 v2 h
    exact hclamp v1 v2 (by rw [h]; norm_num)

/-- Witness for C1 at concrete inputs: the one-element anti-parallel pair
`[1]`, `[-1]` has raw cosine similarity `-1` and scores `0.0`, and a
zero-norm first vector gives similarity `0.0`. -/
theorem semantic_scorer_unit_range_witness :
    pyRound1 (max 0 (cosine_similarity (some [(1 : ℝ)]) (some [(-1 : ℝ)]))) = 0
    ∧ cosine_similarity (some [(0 : ℝ)]) (some [(1 : ℝ)]) = 0 := by
  have hcos : cosine_similarity (some [(1 : ℝ)]) (some [(-1 : ℝ)]) = -1 := by
    unfold cosine_similarity dotList normList
    norm_num
  refine ⟨semantic_scorer_unit_range.2.2.2 [1] [-1] hcos,
    semantic_scorer_unit_range.2.1 [0] [1] (Or.inl ?_)⟩
  unfold normList
  norm_num

/-! ### Claim C10: cosine_similarity is defensive -/

/-- Claim C10: `cosine_similarity` is total and defensive: `None` on
either side, or vectors of unequal length, give `0.0` (no exception, no
partial dot product). -/
theorem cosine_similarity_defensive :
    (∀ v : Option (List ℝ), cosine_similarity none v = 0)
  ∧ (∀ v : Option (List ℝ), cosine_similarity v none = 0)
  ∧ (∀ v1 v2 : List ℝ, v1.length ≠ v2.length →
      cosine_similarity (some v1) (some v2) = 0) := by
  refine ⟨fun v => ?_, fun v => ?_, fun v1 v2 h => ?_⟩
  · cases v <;> rfl
  · cases v <;> rfl
  · unfold cosine_similarity
    simp only []
    rw [if_pos h]

/-- Witness for C10 at concrete inputs of unequal lengths. -/
theorem cosine_similarity_defensive_witness :
    cosine_similarity (some [(1 : ℝ)]) (some [1, 2]) = 0 :=
  cosine_similarity_defensive.2.2 [1] [1, 2] (by simp)

/-! ### Claim C7: the embedding wrapper fails open -/

/-- Claim C7: `get_embedding_safe` never raises to its caller: an
empty/whitespace-only input, a raised transport call, an empty `data`
list, or a first item without an embedding field all return `none` (the
unavailable signal, one call, no retry), and whenever either embedding is
unavailable, `score_single_pair` scores the pair through the
bag-of-words fallback. -/
theorem embedding_wrapper_fail_open :
    (∀ (call : Except Unit EmbResp) (text : String), pyStrip text = "" →
      get_embedding_safe call text = none)
  ∧ (∀ text : String, get_embedding_safe (.error ()) text = none)
  ∧ (∀ text : String, get_embedding_safe (.ok ⟨[]⟩) text = none)
  ∧ (∀ (text : String) (rest : List EmbItem),
      get_embedding_safe (.ok ⟨⟨none⟩ :: rest⟩) text = none)
  ∧ (∀ (azure : String → Except Unit EmbResp) (ma ua : String),
      get_embedding_safe (azure ma) ma = none ∨
        (if ua ≠ "" then get_embedding_safe (azure ua) ua else none) = none →
      score_single_pair azure ma ua
        = pyRound1 (max 0 (cosine_similarity
            (some (simple_bow_embedding ma ua).1)
            (some (simple_bow_embedding ma ua).2)))) := by
  refine ⟨?_, ?_, ?_, ?_, ?_⟩
  · intro call text h
    unfold get_embedding_safe
    simp only [h]
    rfl
  · intro text
    unfold get_embedding_safe
    simp only []
    split <;> rfl
  · intro text
    unfold get_embedding_safe
    simp only []
    split <;> rfl
  · intro text rest
    unfold get_embedding_safe
    simp only []
    split <;> rfl
  · intro azure ma ua h
    unfold score_single_pair
    simp only []
    rcases hm : get_embedding_safe (azure ma) ma with _ | mv
    · rcases hu : (if ua ≠ "" then get_embedding_safe (azure ua) ua else none) with _ | uv
      · simp [hm, hu]
      · simp [hm, hu]
    · rcases hu : (if ua ≠ "" then get_embedding_safe (azure ua) ua else none) with _ | uv
      · simp [hm, hu]
      · rcases h with h | h
        · rw [hm] at h; exact absurd h (by simp)
        · rw [hu] at h; exact absurd h (by simp)

/-- Witness for C7 at concrete inputs: whitespace-only input, a raised
call, and the fallback path when the model-answer embedding call raises. -/
theorem embedding_wrapper_fail_open_witness :
    get_embedding_safe (.ok ⟨[]⟩) "  " = none
    ∧ score_single_pair (fun _ => .error ()) "a" "b"
        = pyRound1 (max 0 (cosine_similarity
            (some (simple_bow_embedding "a" "b").1)
            (some (simple_bow_embedding "a" "b").2))) :=
  ⟨embedding_wrapper_fail_open.1 (.ok ⟨[]⟩) "  " (by decide),
   embedding_wrapper_fail_open.2.2.2.2 (fun _ => .error ()) "a" "b"
     (Or.inl (embedding_wrapper_fail_open.2.1 "a"))⟩

/-! ### Claim C2: the bag-of-words embedding pair -/

lemma mem_dedupFirstAux (a : String) :
    ∀ (l seen : List String), a ∈ dedupFirstAux seen l ↔ (a ∈ l ∧ a ∉ seen) := by
  intro l
  induction l with
  | nil => intro seen; simp [dedupFirstAux]
  | cons x xs ih =>
    intro seen
    unfold dedupFirstAux
    by_cases hx : x ∈ seen
    · rw [if_pos hx, ih]
      constructor
      · rintro ⟨h1, h2⟩
        exact ⟨List.mem_cons_of_mem _ h1, h2⟩
      · rintro ⟨h1, h2⟩
        rcases List.mem_cons.mp h1 with rfl | h1
        · exact absurd hx h2
        · exact ⟨h1, h2⟩
    · rw [if_neg hx]
      simp only [List.mem_cons, ih]
      by_cases hax : a = x
      · subst hax; tauto
      · tauto

lemma mem_dedupFirst (a : String) (l : List String) :
    a ∈ dedupFirst l ↔ a ∈ l := by
  unfold dedupFirst
  rw [mem_dedupFirstAux]
  simp

lemma normalize_length (v : List ℝ) : (normalize v).length = v.length := by
  unfold normalize
  split
  · rfl
  · exact List.length_map _ _

lemma sum_sq_nonneg (v : List ℝ) : 0 ≤ (v.map (fun a => a * a)).sum := by
  induction v with
  | nil => simp
  | cons x xs ih =>
    simp only [List.map_cons, List.sum_cons]
    have := mul_self_nonneg x
    linarith

lemma sum_sq_pos_of_mem {x : ℝ} {v : List ℝ} (hm : x ∈ v) (hx : x ≠ 0) :
    0 < (v.map (fun a => a * a)).sum := by
  induction v with
  | nil => simp at hm
  | cons y ys ih =>
    simp only [List.map_cons, List.sum_cons]
    rcases List.mem_cons.mp hm with rfl | hm2
    · have h1 : 0 < x * x := mul_self_pos.mpr hx
      have h2 := sum_sq_nonneg ys
      linarith
    · have h1 := ih hm2
      have h2 := mul_self_nonneg y
      linarith

lemma sum_map_div_sq (v : List ℝ) (n : ℝ) :
    ((v.map (fun x => x / n)).map (fun a => a * a)).sum
      = ((v.map (fun a => a * a)).sum) / (n * n) := by
  induction v with
  | nil => simp
  | cons x xs ih =>
    simp only [List.map_cons, List.sum_cons, ih]
    rw [div_mul_div_comm, add_div]

lemma normalize_unit {v : List ℝ} (h : normList v ≠ 0) :
    normList (normalize v) = 1 := by
  have hS : 0 ≤ (v.map (fun a => a * a)).sum := sum_sq_nonneg v
  have hS0 : (v.map (fun a => a * a)).sum ≠ 0 := by
    intro h0
    apply h
    unfold normList
    rw [h0, Real.sqrt_zero]
  unfold normalize
  rw [if_neg h]
  unfold normList
  rw [sum_map_div_sq]
  rw [Real.mul_self_sqrt hS, div_self hS0, Real.sqrt_one]

lemma normList_zeros (l : List String) :
    normList (l.map (fun _ => (0 : ℝ))) = 0 := by
  unfold normList
  rw [List.map_map]
  have : ((fun a => a * a) ∘ fun _ => (0 : ℝ)) = fun (_ : String) => (0 : ℝ) := by
    funext w; simp
  rw [this]
  induction l with
  | nil => simp
  | cons x xs ih =>
    simp only [List.map_cons, List.sum_cons, zero_add]
    exact ih

lemma normalize_zeros (l : List String) :
    normalize (l.map (fun _ => (0 : ℝ))) = l.map (fun _ => (0 : ℝ)) := by
  unfold normalize
  rw [if_pos (normList_zeros l)]

/-- Claim C2: `simple_bow_embedding` returns two vectors of equal length
over the first-seen-order union vocabulary (model text's tokens first),
each the L2-normalized token-count vector against that vocabulary; an
empty (zero-token) text gives the zero vector (normalization is a no-op
there) and a non-empty token list gives a unit-norm vector. -/
theorem bow_embedding_pair_spec (a_text b_text : String) :
    ((simple_bow_embedding a_text b_text).1.length
        = (dedupFirst (tokenize a_text ++ tokenize b_text)).length
      ∧ (simple_bow_embedding a_text b_text).2.length
        = (dedupFirst (tokenize a_text ++ tokenize b_text)).length)
    ∧ ((simple_bow_embedding a_text b_text).1
        = normalize ((dedupFirst (tokenize a_text ++ tokenize b_text)).map
            (fun w => (((tokenize a_text).count w : ℕ) : ℝ)))
      ∧ (simple_bow_embedding a_text b_text).2
        = normalize ((dedupFirst (tokenize a_text ++ tokenize b_text)).map
            (fun w => (((tokenize b_text).count w : ℕ) : ℝ))))
    ∧ (tokenize a_text = [] →
        (simple_bow_embedding a_text b_text).1
          = (dedupFirst (tokenize a_text ++ tokenize b_text)).map (fun _ => 0))
    ∧ (tokenize b_text = [] →
        (simple_bow_embedding a_text b_text).2
          = (dedupFirst (tokenize a_text ++ tokenize b_text)).map (fun _ => 0))
    ∧ (tokenize a_text ≠ [] →
        normList (simple_bow_embedding a_text b_text).1 = 1)
    ∧ (tokenize b_text ≠ [] →
        normList (simple_bow_embedding a_text b_text).2 = 1) := by
  have key : ∀ (toks other : List String) (vocab : List String),
      (∀ w, w ∈ vocab ↔ w ∈ toks ++ other ∨ w ∈ other ++ toks) →
      toks ≠ [] →
      normList (normalize (vocab.map (fun w => ((toks.count w : ℕ) : ℝ)))) = 1 := by
    intro toks other vocab hvocab hne
    apply normalize_unit
    rcases toks with _ | ⟨t, ts⟩
    · exact absurd rfl hne
    · have ht : t ∈ vocab := by
        rw [hvocab]
        exact Or.inl (List.mem_append_left _ (List.mem_cons_self t ts))
      have hcnt : 0 < (t :: ts).count t := List.count_pos_iff.mpr (List.mem_cons_self t ts)
      have hentry : (((t :: ts).count t : ℕ) : ℝ) ∈
          vocab.map (fun w => (((t :: ts).count w : ℕ) : ℝ)) :=
        List.mem_map.mpr ⟨t, ht, rfl⟩
      have hne0 : (((t :: ts).count t : ℕ) : ℝ) ≠ 0 := by
        exact_mod_cast Nat.pos_iff_ne_zero.mp hcnt
      have hpos := sum_sq_pos_of_mem hentry hne0
      unfold normList
      intro h0
      rw [Real.sqrt_eq_zero (le_of_lt hpos)] at h0
      exact absurd h0 (ne_of_gt hpos)
  constructor
  · constructor
    · unfold simple_bow_embedding
      simp only []
      rw [normalize_length, List.length_map]
    · unfold simple_bow_embedding
      simp only []
      rw [normalize_length, List.length_map]
  refine ⟨⟨rfl, rfl⟩, ?_, ?_, ?_, ?_⟩
  · intro h
    unfold simple_bow_embedding
    simp only [h, List.count_nil, Nat.cast_zero]
    rw [normalize_zeros]
  · intro h
    unfold simple_bow_embedding
    simp only [h, List.count_nil, Nat.cast_zero]
    rw [normalize_zeros]
  · intro h
    unfold simple_bow_embedding
    simp only []
    exact key (tokenize a_text) (tokenize b_text) _
      (fun w => by rw [mem_dedupFirst]; simp [or_comm, List.mem_append]) h
  · intro h
    unfold simple_bow_embedding
    simp only []
    exact key (tokenize b_text) (tokenize a_text) _
      (fun w => by rw [mem_dedupFirst]; simp [or_comm, List.mem_append]) h

/-- Witness for C2 at concrete texts: a two-token text yields a
unit-norm vector, and the empty text yields the zero vector. -/
theorem bow_embedding_pair_spec_witness :
    normList (simple_bow_embedding "Hello hello" "").1 = 1
    ∧ (simple_bow_embedding "Hello hello" "").2
        = (dedupFirst (tokenize "Hello hello" ++ tokenize "")).map (fun _ => 0) :=
  ⟨(bow_embedding_pair_spec "Hello hello" "").2.2.2.2.1 (by decide),
   (bow_embedding_pair_spec "Hello hello" "").2.2.2.1 (by decide)⟩

/-! ### Claim C3: survey-row scoring degrades per question and sums into total -/

lemma scoreLoop_cons (scorer : String → String → Except Unit ℝ)
    (ua : String → Option String) (q m : String) (rest : List (String × String)) :
    ∃ v, (scoreLoop scorer ua ((q, m) :: rest)).1
        = (q, v) :: (scoreLoop scorer ua rest).1
      ∧ (scoreLoop scorer ua ((q, m) :: rest)).2
          = v + (scoreLoop scorer ua rest).2
      ∧ (pyStrip ((ua q).getD "") = "" → v = 0)
      ∧ (∀ e, scorer m (pyStrip ((ua q).getD "")) = .error e → v = 0) := by
  rw [scoreLoop.eq_def]
  simp only []
  split
  · exact ⟨0, rfl, by ring, fun _ => rfl, fun _ _ => rfl⟩
  · rename_i hne
    split
    · rename_i s heq
      refine ⟨s, rfl, rfl, fun hemp => absurd hemp hne, fun e herr => ?_⟩
      rw [herr] at heq
      exact absurd heq (by simp)
    · exact ⟨0, rfl, by ring, fun _ => rfl, fun _ _ => rfl⟩

lemma scoreLoop_total (scorer : String → String → Except Unit ℝ)
    (ua : String → Option String) :
    ∀ qs, (scoreLoop scorer ua qs).2
      = ((scoreLoop scorer ua qs).1.map Prod.snd).sum := by
  intro qs
  induction qs with
  | nil => simp [scoreLoop]
  | cons p rest ih =>
    obtain ⟨q, m⟩ := p
    obtain ⟨v, h1, h2, _, _⟩ := scoreLoop_cons scorer ua q m rest
    rw [h1, h2, List.map_cons, List.sum_cons, ih]

lemma scoreLoop_keys (scorer : String → String → Except Unit ℝ)
    (ua : String → Option String) :
    ∀ qs, ((scoreLoop scorer ua qs).1.map Prod.fst) = qs.map Prod.fst := by
  intro qs
  induction qs with
  | nil => simp [scoreLoop]
  | cons p rest ih =>
    obtain ⟨q, m⟩ := p
    obtain ⟨v, h1, _, _, _⟩ := scoreLoop_cons scorer ua q m rest
    rw [h1, List.map_cons, ih, List.map_cons]

lemma scoreLoop_lookup_empty (scorer : String → String → Except Unit ℝ)
    (ua : String → Option String) :
    ∀ qs qid, pyStrip ((ua qid).getD "") = "" → qid ∈ qs.map Prod.fst →
      ((scoreLoop scorer ua qs).1.lookup qid) = some 0 := by
  intro qs
  induction qs with
  | nil => intro qid _ hmem; simp at hmem
  | cons p rest ih =>
    obtain ⟨q, m⟩ := p
    intro qid hemp hmem
    obtain ⟨v, h1, _, hv0, _⟩ := scoreLoop_cons scorer ua q m rest
    rw [h1, List.lookup_cons]
    by_cases hq : qid = q
    · subst hq
      simp only [beq_self_eq_true]
      rw [hv0 hemp]
    · have hbeq : (qid == q) = false := beq_eq_false_iff_ne.mpr hq
      rw [hbeq]
      simp only []
      apply ih qid hemp
      rw [List.map_cons] at hmem
      rcases List.mem_cons.mp hmem with h | h
      · exact absurd h hq
      · exact h

lemma scoreLoop_lookup_error (scorer : String → String → Except Unit ℝ)
    (ua : String → Option String) :
    ∀ qs qid ma, (qs.map Prod.fst).Nodup → (qid, ma) ∈ qs →
      scorer ma (pyStrip ((ua qid).getD "")) = .error () →
      ((scoreLoop scorer ua qs).1.lookup qid) = some 0 := by
  intro qs
  induction qs with
  | nil => intro qid ma _ hmem; simp at hmem
  | cons p rest ih =>
    obtain ⟨q, m⟩ := p
    intro qid ma hnd hmem herr
    obtain ⟨v, h1, _, _, hverr⟩ := scoreLoop_cons scorer ua q m rest
    rw [h1, List.lookup_cons]
    rcases List.mem_cons.mp hmem with heq | hmem2
    · rw [Prod.mk.injEq] at heq
      obtain ⟨rfl, rfl⟩ := heq
      simp only [beq_self_eq_true]
      rw [hverr () herr]
    · rw [List.map_cons] at hnd
      have hq : qid ≠ q := by
        rintro rfl
        have hmemk : qid ∈ rest.map Prod.fst := List.mem_map_of_mem Prod.fst hmem2
        exact (List.nodup_cons.mp hnd).1 hmemk
      have hbeq : (qid == q) = false := beq_eq_false_iff_ne.mpr hq
      rw [hbeq]
      simp only []
      exact ih qid ma (List.nodup_cons.mp hnd).2 hmem2 herr

/-- Claim C3: for every answer mapping, `score_answers_with_azure`
assigns `0.0` to every question whose (stripped) user answer is empty or
missing, assigns `0.0` to any question whose scoring raises (the row is
never aborted: the function is total), and its `"total"` entry is the sum
of the per-question scores rounded to one decimal. -/
theorem survey_row_scoring (scorer : String → String → Except Unit ℝ)
    (ua : String → Option String) :
    (∀ qid, qid ∈ MODEL_ANSWERS.map Prod.fst → pyStrip ((ua qid).getD "") = "" →
      (score_answers_with_azure scorer ua).lookup qid = some 0)
  ∧ (∀ qid ma, (qid, ma) ∈ MODEL_ANSWERS →
      scorer ma (pyStrip ((ua qid).getD "")) = .error () →
      (score_answers_with_azure scorer ua).lookup qid = some 0)
  ∧ (score_answers_with_azure scorer ua).lookup "total"
      = some (pyRound1
          ((((score_answers_with_azure scorer ua).dropLast).map Prod.snd).sum)) := by
  have hkeys : ((scoreLoop scorer ua MODEL_ANSWERS).1.map Prod.fst)
      = ["Q1", "Q2", "Q3"] := by
    rw [scoreLoop_keys]
    rfl
  refine ⟨?_, ?_, ?_⟩
  · intro qid hmem hemp
    unfold score_answers_with_azure
    simp only []
    rw [List.lookup_append, scoreLoop_lookup_empty scorer ua MODEL_ANSWERS qid hemp hmem]
    rfl
  · intro qid ma hmem herr
    unfold score_answers_with_azure
    simp only []
    rw [List.lookup_append, scoreLoop_lookup_error scorer ua MODEL_ANSWERS qid ma
      (by rw [show MODEL_ANSWERS.map Prod.fst = ["Q1", "Q2", "Q3"] from rfl]; decide)
      hmem herr]
    rfl
  · unfold score_answers_with_azure
    simp only []
    rw [List.lookup_append]
    have hnone : ((scoreLoop scorer ua MODEL_ANSWERS).1.lookup "total") = none := by
      rw [List.lookup_eq_none_iff]
      intro p hp
      have : p.1 ∈ ((scoreLoop scorer ua MODEL_ANSWERS).1.map Prod.fst) :=
        List.mem_map_of_mem Prod.fst hp
      rw [hkeys] at this
      have hne : "total" ≠ p.1 := by
        intro hcontra
        rw [← hcontra] at this
        revert this
        decide
      simpa using hne
    rw [hnone, Option.none_or, List.dropLast_concat, List.lookup_cons_self,
      scoreLoop_total]

/-- Witness for C3 at a concrete answer mapping with only `Q2` non-empty
and a scorer that raises: `Q1` (empty) and `Q2` (raising) both score
`0.0`. -/
theorem survey_row_scoring_witness :
    (score_answers_with_azure (fun _ _ => .error ())
      (fun qid => if qid == "Q2" then some "valid text" else some "")).lookup "Q1"
        = some 0
    ∧ (score_answers_with_azure (fun _ _ => .error ())
      (fun qid => if qid == "Q2" then some "valid text" else some "")).lookup "Q2"
        = some 0 :=
  ⟨(survey_row_scoring (fun _ _ => .error ())
      (fun qid => if qid == "Q2" then some "valid text" else some "")).1
      "Q1" (by decide) (by decide),
   (survey_row_scoring (fun _ _ => .error ())
      (fun qid => if qid == "Q2" then some "valid text" else some "")).2.1
      "Q2"
      "Better credit from government and insurance companies. Faster reimbursement of insurance claims. Better trust by patients."
      (by decide) rfl⟩

/-! ### Claim C5: best-match selection is the first index achieving the maximum -/

lemma argmaxGo_spec (l : List ℝ) :
    ∀ (ys : List ℝ) (i best : ℕ), l.drop i = ys → i ≤ l.length → best < i →
      (∀ j, j < i → l.getD j 0 ≤ l.getD best 0) →
      (∀ j, j < best → l.getD j 0 < l.getD best 0) →
      (argmaxGo ys i best (l.getD best 0) < l.length
        ∧ (∀ j, j < l.length →
            l.getD j 0 ≤ l.getD (argmaxGo ys i best (l.getD best 0)) 0)
        ∧ (∀ j, j < argmaxGo ys i best (l.getD best 0) →
            l.getD j 0 < l.getD (argmaxGo ys i best (l.getD best 0)) 0)) := by
  intro ys
  induction ys with
  | nil =>
    intro i best hdrop hi hbest hle hlt
    have hlen : l.length ≤ i := by
      by_contra hcon
      push_neg at hcon
      have := List.drop_eq_nil_iff.mp hdrop
      omega
    have hieq : i = l.length := le_antisymm hi hlen
    subst hieq
    exact ⟨hbest, fun j hj => hle j hj, hlt⟩
  | cons y ys2 ih =>
    intro i best hdrop hi hbest hle hlt
    have hilt : i < l.length := by
      by_contra hcon
      push_neg at hcon
      rw [List.drop_eq_nil_of_le hcon] at hdrop
      exact List.noConfusion hdrop
    have hy : l.getD i 0 = y := by
      have h0 : (l.drop i).getD 0 0 = y := by rw [hdrop]; rfl
      rw [List.getD_eq_getElem?_getD] at h0 ⊢
      rw [List.getElem?_drop] at h0
      simpa using h0
    have hdrop2 : l.drop (i + 1) = ys2 := by
      have : (l.drop i).drop 1 = ys2 := by rw [hdrop]; rfl
      rw [List.drop_drop] at this
      simpa [Nat.add_comm] using this
    rw [argmaxGo]
    by_cases hcase : l.getD best 0 < y
    · have hbi : l.getD best 0 < l.getD i 0 := by rw [hy]; exact hcase
      rw [if_pos hcase, ← hy]
      refine ih (i + 1) i hdrop2 hilt (Nat.lt_succ_self i) ?_ ?_
      · intro j hj
        rcases Nat.lt_succ_iff_lt_or_eq.mp hj with h | rfl
        · exact le_of_lt (lt_of_le_of_lt (hle j h) hbi)
        · exact le_refl _
      · intro j hj
        exact lt_of_le_of_lt (hle j hj) hbi
    · rw [if_neg hcase]
      exact ih (i + 1) best hdrop2 hilt (Nat.lt_succ_of_lt hbest)
        (fun j hj => by
          rcases Nat.lt_succ_iff_lt_or_eq.mp hj with h | rfl
          · exact hle j h
          · rw [hy]; exact not_lt.mp hcase)
        hlt

/-- Claim C5: `npArgmax` (the model of `np.argmax` / `sims.argmax()` in
`respond`) selects, deterministically, the first index in corpus order
achieving the maximum similarity: its value is a maximum over all
indices and every strictly earlier index holds a strictly smaller value;
under the fitted index and a met threshold, `faqLookup` selects exactly
the entry at that index. -/
theorem best_match_first_argmax :
    (∀ (x : ℝ) (xs : List ℝ),
      npArgmax (x :: xs) < (x :: xs).length
      ∧ (∀ j, j < (x :: xs).length →
          (x :: xs).getD j 0 ≤ (x :: xs).getD (npArgmax (x :: xs)) 0)
      ∧ (∀ j, j < npArgmax (x :: xs) →
          (x :: xs).getD j 0 < (x :: xs).getD (npArgmax (x :: xs)) 0))
  ∧ (∀ (env : ChatEnv) (answers : List String) (threshold : ℝ) (q : String)
      (f : String → Except Unit (List ℝ)) (sims : List ℝ),
      env.simsOf = some f →
      f (pyLower q) = .ok sims →
      threshold ≤ sims.getD (npArgmax sims) 0 →
      faqLookup env answers threshold q
        = some (answers.getD (npArgmax sims) "")) := by
  constructor
  · intro x xs
    have h0 : (x :: xs).getD 0 0 = x := rfl
    have hspec := argmaxGo_spec (x :: xs) xs 1 0 rfl
      (by simp) (Nat.zero_lt_one)
      (fun j hj => by
        have : j = 0 := by omega
        subst this
        exact le_refl _)
      (fun j hj => absurd hj (Nat.not_lt_zero j))
    rw [h0] at hspec
    exact hspec
  · intro env answers threshold q f sims henv hf hth
    unfold faqLookup
    rw [henv]
    simp only []
    rw [hf]
    simp only []
    rw [if_pos hth]

/-- Witness for C5 at the concrete row `[1, 1, 0]`: the tie between
indices `0` and `1` is broken in favour of index `0`, and `faqLookup`
returns the answer at that index. -/
theorem best_match_first_argmax_witness :
    ((1 : ℝ) :: [1, 0]).getD 1 0
        ≤ ((1 : ℝ) :: [1, 0]).getD (npArgmax ((1 : ℝ) :: [1, 0])) 0
    ∧ faqLookup ⟨some (fun _ => .ok [1, 1, 0]), fun _ => .error ()⟩
        ["A", "B", "C"] 0.6 "hi"
        = some (["A", "B", "C"].getD (npArgmax [(1 : ℝ), 1, 0]) "") := by
  have hargmax : npArgmax [(1 : ℝ), 1, 0] = 0 := by
    norm_num [npArgmax, argmaxGo]
  refine ⟨(best_match_first_argmax.1 1 [1, 0]).2.1 1 (by norm_num),
    best_match_first_argmax.2 _ ["A", "B", "C"] 0.6 "hi" _ [1, 1, 0] rfl rfl ?_⟩
  rw [hargmax]
  norm_num

/-! ### Claim C4: FAQ hit at or above threshold, fallback below -/

/-- Claim C4: for every non-empty query, when the fitted index exists and
yields a similarity row, a best score at or above the threshold makes
`respond` return the stored FAQ answer of the best-matching entry
verbatim, and a best score below the threshold makes it fall through to
the hosted chat fallback.  The threshold is the parameter (`0.6` in
`chat_agent.py`, `0.7` in `agent.py`). -/
theorem faq_threshold_routing (env : ChatEnv) (answers : List String)
    (threshold : ℝ) (q : Option String) (f : String → Except Unit (List ℝ))
    (sims : List ℝ)
    (henv : env.simsOf = some f)
    (hne : pyStrip (q.getD "") ≠ "")
    (hf : f (pyLower (pyStrip (q.getD ""))) = .ok sims) :
    (threshold ≤ sims.getD (npArgmax sims) 0 →
      respond env answers threshold q = answers.getD (npArgmax sims) "")
  ∧ (sims.getD (npArgmax sims) 0 < threshold →
      respond env answers threshold q = chatFallbackReply env (pyStrip (q.getD ""))) := by
  constructor
  · intro hth
    unfold respond
    simp only []
    rw [if_neg hne]
    unfold faqLookup
    rw [henv]
    simp only []
    rw [hf]
    simp only []
    rw [if_pos hth]
  · intro hth
    unfold respond
    simp only []
    rw [if_neg hne]
    unfold faqLookup
    rw [henv]
    simp only []
    rw [hf]
    simp only []
    rw [if_neg (not_le.mpr hth)]

/-- Witness for C4 at a concrete environment: with similarity row
`[1, 0]`, threshold `0.6` hits the FAQ answer and threshold `2` falls
through to the chat fallback. -/
theorem faq_threshold_routing_witness :
    respond ⟨some (fun _ => .ok [1, 0]), fun _ => .error ()⟩ ["A", "B"] 0.6
        (some "hi") = (["A", "B"].getD (npArgmax [(1 : ℝ), 0]) "")
    ∧ respond ⟨some (fun _ => .ok [1, 0]), fun _ => .error ()⟩ ["A", "B"] 2
        (some "hi")
        = chatFallbackReply ⟨some (fun _ => .ok [1, 0]), fun _ => .error ()⟩
            (pyStrip ((some "hi").getD "")) := by
  have hargmax : npArgmax [(1 : ℝ), 0] = 0 := by
    norm_num [npArgmax, argmaxGo]
  refine ⟨(faq_threshold_routing _ ["A", "B"] 0.6 (some "hi") _ [1, 0]
      rfl (by decide) rfl).1 ?_,
    (faq_threshold_routing _ ["A", "B"] 2 (some "hi") _ [1, 0]
      rfl (by decide) rfl).2 ?_⟩
  · rw [hargmax]; norm_num
  · rw [hargmax]; norm_num

/-! ### Claim C6: respond is total with fixed degradation messages -/

/-- Claim C6: `respond` is a total function (it never raises, every
branch returns a string): an empty or whitespace-only query returns the
fixed invalid-input message without consulting the index or the chat
client; when the FAQ path yields nothing and the chat call raises, it
returns the fixed offline message; when the chat call succeeds but no
text is extractable (no choices, no extractable field, or empty text),
it returns the distinct fixed uncertainty message. -/
theorem respond_fixed_messages :
    (∀ (env : ChatEnv) (answers : List String) (threshold : ℝ)
      (q : Option String), pyStrip (q.getD "") = "" →
      respond env answers threshold q = invalidMsg)
  ∧ (∀ (env : ChatEnv) (answers : List String) (threshold : ℝ)
      (q : Option String), pyStrip (q.getD "") ≠ "" →
      faqLookup env answers threshold (pyStrip (q.getD "")) = none →
      env.chat (pyStrip (q.getD "")) = .error () →
      respond env answers threshold q = offlineMsg)
  ∧ (∀ (env : ChatEnv) (answers : List String) (threshold : ℝ)
      (q : Option String) (resp : ChatResp), pyStrip (q.getD "") ≠ "" →
      faqLookup env answers threshold (pyStrip (q.getD "")) = none →
      env.chat (pyStrip (q.getD "")) = .ok resp →
      (resp.choices = []
        ∨ (∃ c cs, resp.choices = c :: cs
            ∧ (extract_text_from_choice c = none
              ∨ extract_text_from_choice c = some ""))) →
      respond env answers threshold q = uncertainMsg) := by
  refine ⟨?_, ?_, ?_⟩
  · intro env answers threshold q hq
    unfold respond
    simp only []
    rw [if_pos hq]
  · intro env answers threshold q hq hfaq hchat
    unfold respond
    simp only []
    rw [if_neg hq, hfaq]
    unfold chatFallbackReply
    rw [hchat]
  · intro env answers threshold q resp hq hfaq hchat hshape
    unfold respond
    simp only []
    rw [if_neg hq, hfaq]
    unfold chatFallbackReply
    rw [hchat]
    simp only []
    rcases hshape with hnil | ⟨c, cs, hcons, hex⟩
    · rw [hnil]
    · rw [hcons]
      simp only []
      rcases hex with hex | hex
      · rw [hex]
      · rw [hex]
        simp

/-- Witness for C6 at concrete environments: a whitespace-only query, a
raising chat call, and a successful call with an empty choices list. -/
theorem respond_fixed_messages_witness :
    respond ⟨none, fun _ => .error ()⟩ [] 0.6 (some " ") = invalidMsg
    ∧ respond ⟨none, fun _ => .error ()⟩ [] 0.6 (some "hello") = offlineMsg
    ∧ respond ⟨none, fun _ => .ok ⟨[]⟩⟩ [] 0.6 (some "hello") = uncertainMsg :=
  ⟨respond_fixed_messages.1 ⟨none, fun _ => .error ()⟩ [] 0.6 (some " ") (by decide),
   respond_fixed_messages.2.1 ⟨none, fun _ => .error ()⟩ [] 0.6 (some "hello")
     (by decide) rfl rfl,
   respond_fixed_messages.2.2 ⟨none, fun _ => .ok ⟨[]⟩⟩ [] 0.6 (some "hello") ⟨[]⟩
     (by decide) rfl rfl (Or.inl rfl)⟩

/-! ### Claims C8 and C9: the batch driver -/

lemma writeScores_scoreQ1 (row : Row) (scores : List (String × ℝ)) :
    ((writeScores row scores) "Score Q1").scored = true := by
  unfold writeScores SCORE_COLUMNS
  simp only [List.foldl_cons, List.foldl_nil]
  simp [Row.update, Cell.scored]

lemma processRows_cons (score : Row → List (String × ℝ)) (debug : Bool)
    (row : Row) (rest : List Row) :
    processRows score debug (row :: rest)
      = if (row "Score Q1").scored
        then (row :: (processRows score debug rest).1,
              (processRows score debug rest).2)
        else ((if debug then row else writeScores row (score row))
                :: (processRows score debug rest).1,
              (processRows score debug rest).2 + 1) := by
  rw [processRows.eq_def]

lemma processRows_count (score : Row → List (String × ℝ)) :
    ∀ rows : List Row, (processRows score false rows).2
      = (rows.filter (fun r => ! (r "Score Q1").scored)).length := by
  intro rows
  induction rows with
  | nil => rfl
  | cons row rest ih =>
    cases hb : (row "Score Q1").scored <;>
      simp [processRows_cons, List.filter_cons, hb, ih]

lemma processRows_rows (score : Row → List (String × ℝ)) :
    ∀ rows : List Row, List.Forall₂ (fun old new =>
        if (old "Score Q1").scored then new = old
        else new = writeScores old (score old))
      rows (processRows score false rows).1 := by
  intro rows
  induction rows with
  | nil => exact List.Forall₂.nil
  | cons row rest ih =>
    cases hb : (row "Score Q1").scored
    · rw [processRows_cons, hb]
      simp only [Bool.false_eq_true, if_false]
      exact List.Forall₂.cons (by rw [hb]; simp) ih
    · rw [processRows_cons, hb]
      simp only [if_true]
      exact List.Forall₂.cons (by rw [hb]; simp) ih

lemma processRows_twice (score score2 : Row → List (String × ℝ)) :
    ∀ rows : List Row,
      processRows score2 false (processRows score false rows).1
        = ((processRows score false rows).1, 0) := by
  intro rows
  induction rows with
  | nil => rfl
  | cons row rest ih =>
    cases hb : (row "Score Q1").scored
    · simp [processRows_cons, hb, writeScores_scoreQ1, ih]
    · simp [processRows_cons, hb, ih]

/-- Claim C8: for the non-debug run, the batch driver skips exactly the
rows whose `Score Q1` cell is non-empty (each output row is the input row
when skipped, and the score-written row otherwise), the reported count is
the number of rows it updated (the rows with an empty first score cell),
and a second run on the result of a successful run updates zero rows and
leaves the sheet unchanged. -/
theorem batch_driver_idempotent :
    (∀ (score : Row → List (String × ℝ)) (rows : List Row),
      (processRows score false rows).2
        = (rows.filter (fun r => ! (r "Score Q1").scored)).length)
  ∧ (∀ (score : Row → List (String × ℝ)) (rows : List Row),
      List.Forall₂ (fun old new =>
        if (old "Score Q1").scored then new = old
        else new = writeScores old (score old))
        rows (processRows score false rows).1)
  ∧ (∀ (score score2 : Row → List (String × ℝ)) (sheet sheet2 : Sheet) (n : ℕ),
      process_unscored_responses score false sheet = .ok (sheet2, n) →
      process_unscored_responses score2 false sheet2 = .ok (sheet2, 0)) := by
  refine ⟨processRows_count, processRows_rows, ?_⟩
  intro score score2 sheet sheet2 n h
  unfold process_unscored_responses at h ⊢
  cases hfind : requiredCols.find? (fun c => ! sheet.header.contains c) with
  | some col =>
    rw [hfind] at h
    exact absurd h (by simp)
  | none =>
    rw [hfind] at h
    simp only [Except.ok.injEq, Prod.mk.injEq] at h
    obtain ⟨h1, h2⟩ := h
    subst h1
    simp only []
    rw [hfind]
    simp only []
    rw [processRows_twice]

/-- Witness for C8: a one-row sheet whose row is fully empty is updated
once; re-running on the result updates zero rows. -/
theorem batch_driver_idempotent_witness :
    process_unscored_responses (fun _ => []) false
        ⟨requiredCols, [writeScores (fun _ => Cell.empty) []]⟩
      = .ok (⟨requiredCols, [writeScores (fun _ => Cell.empty) []]⟩, 0) :=
  batch_driver_idempotent.2.2 (fun _ => []) (fun _ => [])
    ⟨requiredCols, [fun _ => Cell.empty]⟩
    ⟨requiredCols, [writeScores (fun _ => Cell.empty) []]⟩ 1 rfl

/-- Claim C9: when a required column is missing from the header, the
batch driver halts with the structural error naming the first missing
column, before touching any row: it returns no updated sheet and no
count at all (never `.ok`), so no cell is written. -/
theorem batch_missing_column_halts (score : Row → List (String × ℝ))
    (debug : Bool) (sheet : Sheet) (col : String)
    (hfind : requiredCols.find? (fun c => ! sheet.header.contains c) = some col) :
    (col ∈ requiredCols ∧ sheet.header.contains col = false)
    ∧ process_unscored_responses score debug sheet
        = .error ("Missing required column: " ++ col)
    ∧ ∀ out : Sheet × ℕ, process_unscored_responses score debug sheet ≠ .ok out := by
  have hmem := List.mem_of_find?_eq_some hfind
  have hprop := List.find?_some hfind
  refine ⟨⟨hmem, by simpa using hprop⟩, ?_, ?_⟩
  · unfold process_unscored_responses
    rw [hfind]
  · intro out
    unfold process_unscored_responses
    rw [hfind]
    simp

/-- Witness for C9: an empty header is missing the first question
column, and the driver returns the structural error for it. -/
theorem batch_missing_column_halts_witness :
    process_unscored_responses (fun _ => []) false (⟨[], []⟩ : Sheet)
      = .error ("Missing required column: "
          ++ "What is your vision for a digital hospital?") :=
  (batch_missing_column_halts (fun _ => []) false ⟨[], []⟩
    "What is your vision for a digital hospital?" rfl).2.1

end Olyph
